import Mathlib

/-!
Verification of the Pomodoro gamification specification against the
repository sources.

The client-side timer is embedded from `src/static/js/timer.js`.
The server-side gamification engine (level table, achievement catalog,
`recordCompletion`, progress store, stats aggregation) is not present in the
repository sources; those components are modelled from the specification,
as marked on each definition.
-/

namespace Pomodoro

/-! ### Client timer model, from src/static/js/timer.js -/
/-- From timer.js line 19: `let timerDuration = 25 * 60`. -/
def timerDuration : Nat := 25 * 60

/-- An externally observable client action: a localStorage write of the two
progress keys (timer.js `saveProgressToLocalStorage`, lines 125-128), or an
HTTP call to the gamification completion endpoint with its JSON body
(timer.js `handlePomodoroCompletion`, lines 188-219). -/
inductive ClientEvent where
  | saveLocal (sessionsCompleted : Nat) (focusTime : Nat)
  | apiCall (body : List (String × Nat))
  deriving Repr, DecidableEq

/-- The JSON body sent by `handlePomodoroCompletion` (timer.js lines 195-197):
`JSON.stringify({ focusTime: timerDuration })` — a single field named
`focusTime`, holding the configured timer duration. -/
def completionRequestBody : List (String × Nat) := [("focusTime", timerDuration)]

/-- The mutable client state of timer.js: the countdown variables
(lines 19-22), the progress counters (lines 25-26), the number of countdown
intervals currently registered via `setInterval`, and the ordered log of
externally observable events. -/
structure TimerState where
  timerRemaining : Nat
  isRunning : Bool
  intervalCount : Nat
  sessionsCompleted : Nat
  focusTime : Nat
  events : List ClientEvent
  deriving Repr, DecidableEq

/-- From timer.js `startTimer` (lines 49-72): `if (isRunning) return;` then
`isRunning = true` and one `setInterval` registration. The interval callback
itself is modelled separately as `tick`. -/
def startTimer (s : TimerState) : TimerState :=
  if s.isRunning then s
  else { s with isRunning := true, intervalCount := s.intervalCount + 1 }

/-- From timer.js `resetTimer` (lines 80-86): clear the interval, restore
`timerRemaining = timerDuration`, `isRunning = false`. -/
def resetTimer (s : TimerState) : TimerState :=
  { s with intervalCount := 0, timerRemaining := timerDuration, isRunning := false }

/-- One firing of the `setInterval` callback in `startTimer` (timer.js lines
52-71): if time remains, decrement; otherwise clear the interval, stop,
increment `sessionsCompleted`, add `timerDuration` to `focusTime`, write both
to localStorage, issue the gamification API call, and reset the timer —
in exactly that order. -/
def tick (s : TimerState) : TimerState :=
  if s.timerRemaining > 0 then
    { s with timerRemaining := s.timerRemaining - 1 }
  else
    let s1 := { s with intervalCount := 0, isRunning := false,
                       sessionsCompleted := s.sessionsCompleted + 1,
                       focusTime := s.focusTime + timerDuration }
    let s2 := { s1 with events := s1.events
                  ++ [ClientEvent.saveLocal s1.sessionsCompleted s1.focusTime] }
    let s3 := { s2 with events := s2.events ++ [ClientEvent.apiCall completionRequestBody] }
    resetTimer s3

/-! ### Level Table, modelled from the spec (§4.1) -/
/-- Modelled from the spec: the Level Table is missing from the sources. It is
a static ordered sequence of `(level, cumulativeXpRequired)` pairs, strictly
increasing in both fields, with a max level beyond which no level-up occurs;
the exact curve is a tunable constant table with non-linear growth, here fixed
using the spec's level-1-to-2 threshold of 10. -/
def levelTable : List (Nat × Nat) :=
  [(1, 0), (2, 10), (3, 25), (4, 50), (5, 100),
   (6, 200), (7, 400), (8, 800), (9, 1600), (10, 3200)]

/-- The highest level defined by `levelTable`. -/
def maxLevel : Nat := 10

/-- The cumulative XP required to reach a given level, read off `levelTable`
(level 1 has floor 0; levels above `maxLevel` do not occur). -/
def cumulativeXpRequired : Nat → Nat
  | 2 => 10
  | 3 => 25
  | 4 => 50
  | 5 => 100
  | 6 => 200
  | 7 => 400
  | 8 => 800
  | 9 => 1600
  | 10 => 3200
  | _ => 0

/-- Scan the level table in order, keeping the last level whose cumulative
requirement is within the given XP. -/
def levelScan : List (Nat × Nat) → Nat → Nat → Nat
  | [], acc, _ => acc
  | (l, req) :: rest, acc, xp => if req ≤ xp then levelScan rest l xp else acc

/-- Modelled from the spec: `levelForXp(xp) → level`, the greatest level of
the table whose cumulative XP requirement is at most `xp`, computed by
scanning the table. -/
def levelForXp (xp : Nat) : Nat :=
  levelScan levelTable 1 xp

/-! ### XP progress view, modelled from the spec (§4.1) -/
/-- The XP-progress view returned by `xpProgress`. -/
structure XpProgress where
  level : Nat
  nextLevel : Nat
  currentLevelFloorXp : Nat
  nextLevelThresholdXp : Nat
  isMaxLevel : Bool
  progressPercentage : ℚ
  deriving Repr, DecidableEq

/-- Modelled from the spec: `xpProgress(xp)` is missing from the sources. It
reports the current level, the XP floor of that level and the threshold of
the next one, and `progressPercentage = 100 * (xp − currentLevelFloorXp) /
(nextLevelThresholdXp − currentLevelFloorXp)` clamped to `[0,100]`; at max
level `isMaxLevel` is true and the percentage reports full. -/
def xpProgress (xp : Nat) : XpProgress :=
  let l := levelForXp xp
  if l = maxLevel then
    { level := l, nextLevel := l, currentLevelFloorXp := cumulativeXpRequired l,
      nextLevelThresholdXp := cumulativeXpRequired l, isMaxLevel := true,
      progressPercentage := 100 }
  else
    { level := l, nextLevel := l + 1, currentLevelFloorXp := cumulativeXpRequired l,
      nextLevelThresholdXp := cumulativeXpRequired (l + 1), isMaxLevel := false,
      progressPercentage :=
        max 0 (min 100 (100 * ((xp : ℚ) - (cumulativeXpRequired l : ℚ)) /
          ((cumulativeXpRequired (l + 1) : ℚ) - (cumulativeXpRequired l : ℚ)))) }

/-! ### Gamification record and Achievement Catalog, modelled from the spec
(§3, §4.2) -/
/-- Modelled from the spec: the per-user `GamificationRecord` is missing from
the sources. Timestamps are seconds; `lastSessionDate` is a calendar day
number (UTC days, a single authoritative notion of day per the spec). -/
structure GamificationRecord where
  totalXp : Nat
  level : Nat
  currentStreak : Nat
  longestStreak : Nat
  lastSessionDate : Option Nat
  unlockedAchievements : List String
  sessionHistory : List (Nat × Nat)
  deriving Repr, DecidableEq

/-- The default zero-value record materialized when the store has none. -/
def initialRecord : GamificationRecord :=
  { totalXp := 0, level := 1, currentStreak := 0, longestStreak := 0,
    lastSessionDate := none, unlockedAchievements := [], sessionHistory := [] }

/-- The accumulated statistics an achievement predicate may read: per the
spec, predicates are pure functions of the record's accumulated fields
(sessions, streaks, XP, cumulative focus time), never of the unlocked set or
of per-call inputs. -/
structure Stats where
  sessions : Nat
  currentStreak : Nat
  longestStreak : Nat
  totalXp : Nat
  focusSeconds : Nat
  deriving Repr, DecidableEq

/-- The accumulated statistics of a record. -/
def statsOf (r : GamificationRecord) : Stats :=
  { sessions := r.sessionHistory.length, currentStreak := r.currentStreak,
    longestStreak := r.longestStreak, totalXp := r.totalXp,
    focusSeconds := (r.sessionHistory.map Prod.snd).sum }

/-- Modelled from the spec: an achievement definition has a unique id, a
name, a description, and a predicate over accumulated statistics. -/
structure AchievementDefinition where
  id : String
  name : String
  description : String
  predicate : Stats → Bool

/-- Modelled from the spec: the static Achievement Catalog is missing from
the sources; representative entries keyed to total sessions reached, streak
length reached and cumulative focus time reached, per the spec's examples. -/
def achievementCatalog : List AchievementDefinition :=
  [{ id := "first_session", name := "First Focus",
     description := "Complete your first Pomodoro", predicate := fun s => 1 ≤ s.sessions },
   { id := "ten_sessions", name := "Dedicated",
     description := "Complete 10 Pomodoros", predicate := fun s => 10 ≤ s.sessions },
   { id := "fifty_sessions", name := "Relentless",
     description := "Complete 50 Pomodoros", predicate := fun s => 50 ≤ s.sessions },
   { id := "streak_3", name := "On a Roll",
     description := "Keep a 3-day streak", predicate := fun s => 3 ≤ s.currentStreak },
   { id := "streak_7", name := "Week Warrior",
     description := "Keep a 7-day streak", predicate := fun s => 7 ≤ s.currentStreak },
   { id := "focus_10h", name := "Deep Diver",
     description := "Accumulate 10 hours of focus",
     predicate := fun s => 36000 ≤ s.focusSeconds }]

/-- Modelled from the spec: `evaluate(record)` returns the ids of catalog
entries whose predicate is true and that are not already in
`record.unlockedAchievements`. -/
def evaluate (r : GamificationRecord) : List String :=
  (achievementCatalog.filter
      (fun a => a.predicate (statsOf r) && !(decide (a.id ∈ r.unlockedAchievements)))).map
    (fun a => a.id)

/-- A record with a single completed session on file, used to evaluate the
catalog on concrete data. -/
def sampleRecord : GamificationRecord :=
  { initialRecord with sessionHistory := [(0, 1500)] }

/-! ### Gamification Engine and Progress Store, modelled from the spec
(§4.3, §5, §7) -/
/-- The calendar day (UTC day number) of a second-resolution timestamp: the
spec requires one authoritative notion of day. -/
def dateOf (t : Nat) : Nat := t / 86400

/-- Modelled from the spec: the fixed XP award per completed session (not
proportional to duration), using the spec scenario's value of 10. -/
def xpPerSession : Nat := 10

/-- The response deltas of a completion (§4.3 step 8). -/
structure CompletionResult where
  xpGained : Nat
  leveledUp : Bool
  newLevel : Nat
  newlyUnlockedAchievements : List String
  deriving Repr, DecidableEq

/-- Modelled from the spec (§4.3 step 4): the streak update, by calendar-date
comparison of the completion day against `lastSessionDate`. -/
def streakUpdate (currentStreak : Nat) (lastSessionDate : Option Nat) (day : Nat) : Nat :=
  match lastSessionDate with
  | none => 1
  | some last =>
      if day = last then currentStreak
      else if day = last + 1 then currentStreak + 1
      else 1

/-- Modelled from the spec (§4.3 steps 2-6): the record mutation for a valid
completion — add the fixed XP, recompute the level, update the streaks and
`lastSessionDate`, append to the history, then union in the newly true
achievements. -/
def applyCompletion (r : GamificationRecord) (focusDurationSeconds : Nat)
    (occurredAt : Nat) : GamificationRecord × CompletionResult :=
  let xpGained := xpPerSession
  let newXp := r.totalXp + xpGained
  let newLevel := levelForXp newXp
  let day := dateOf occurredAt
  let newStreak := streakUpdate r.currentStreak r.lastSessionDate day
  let r1 : GamificationRecord :=
    { totalXp := newXp, level := newLevel, currentStreak := newStreak,
      longestStreak := max r.longestStreak newStreak, lastSessionDate := some day,
      unlockedAchievements := r.unlockedAchievements,
      sessionHistory := r.sessionHistory ++ [(occurredAt, focusDurationSeconds)] }
  let newAch := evaluate r1
  ({ r1 with unlockedAchievements := r1.unlockedAchievements ++ newAch },
   { xpGained := xpGained, leveledUp := decide (r.level < newLevel),
     newLevel := newLevel, newlyUnlockedAchievements := newAch })

/-- The error kinds of §7. -/
inductive EngineError where
  | InvalidInput
  | StoreUnavailable
  deriving Repr, DecidableEq

/-- Modelled from the spec: the Progress Store holds one whole record per
user id; the load and save counters play the role of the spec's store
mutation spy. -/
structure ProgressStore where
  records : List (String × GamificationRecord)
  loadCount : Nat
  saveCount : Nat
  deriving Repr, DecidableEq

def emptyStore : ProgressStore := { records := [], loadCount := 0, saveCount := 0 }

/-- The record the store holds for a user, or the default zero record if the
store has none (§4.3 step 1). -/
def getRecord (st : ProgressStore) (userId : String) : GamificationRecord :=
  match st.records.find? (fun p => p.1 == userId) with
  | some p => p.2
  | none => initialRecord

/-- Whole-record save: replaces the user's record and counts one save. -/
def storeSave (st : ProgressStore) (userId : String) (r : GamificationRecord) :
    ProgressStore :=
  { records := (userId, r) :: st.records.filter (fun p => !(p.1 == userId)),
    loadCount := st.loadCount, saveCount := st.saveCount + 1 }

/-- Modelled from the spec (§4.3, §7): `recordCompletion(userId,
focusDurationSeconds, occurredAt)` rejects invalid input before any load or
save, then performs exactly one load, the mutation, and one save. -/
def recordCompletion (st : ProgressStore) (userId : String)
    (focusDurationSeconds : Int) (occurredAt : Nat) :
    ProgressStore × Except EngineError CompletionResult :=
  if userId = "" then (st, Except.error EngineError.InvalidInput)
  else if focusDurationSeconds ≤ 0 then (st, Except.error EngineError.InvalidInput)
  else
    let st1 : ProgressStore :=
      { records := st.records, loadCount := st.loadCount + 1, saveCount := st.saveCount }
    let r := getRecord st userId
    let out := applyCompletion r focusDurationSeconds.toNat occurredAt
    (storeSave st1 userId out.1, Except.ok out.2)

/-- One engine completion event: user id, reported duration, timestamp. -/
def engineStep (st : ProgressStore) (e : String × Int × Nat) : ProgressStore :=
  (recordCompletion st e.1 e.2.1 e.2.2).1

/-- The store after a sequence of completion events. -/
def runEvents (st : ProgressStore) (evs : List (String × Int × Nat)) : ProgressStore :=
  evs.foldl engineStep st

/-- Every record held in the store has `currentStreak ≤ longestStreak`. -/
def StreakInv (st : ProgressStore) : Prop :=
  ∀ p ∈ st.records, p.2.currentStreak ≤ p.2.longestStreak

/-! ### Theorems -/
/-- C1, counterexample: the completion request body issued by the client does
not contain a `userId` field and does not contain a `focusDurationSeconds`
field, so it is not the case that the body consists exactly of those two
fields. -/
theorem completionRequestBody_not_userId_focusDurationSeconds :
    ¬ ("userId" ∈ completionRequestBody.map Prod.fst ∧
       "focusDurationSeconds" ∈ completionRequestBody.map Prod.fst ∧
       completionRequestBody.length = 2) := by
  decide

/-- C1, amended: the completion request body issued by the client contains
exactly one field, named `focusTime`, whose value is the configured
`timerDuration`; no user id is supplied by the caller. -/
theorem completionRequestBody_is_focusTime_only :
    completionRequestBody = [("focusTime", timerDuration)] ∧
    "userId" ∉ completionRequestBody.map Prod.fst := by
  decide

/-- C9: calling `startTimer` while the timer is already running is a no-op:
the state — including `timerRemaining`, `isRunning`, `sessionsCompleted`,
`focusTime` and the number of registered countdown intervals — is returned
unchanged. -/
theorem startTimer_running_noop (s : TimerState) (h : s.isRunning = true) :
    startTimer s = s := by
  simp [startTimer, h]

/-- C9, witness: a concrete running state is unchanged by `startTimer`. -/
theorem startTimer_running_noop_witness :
    startTimer ⟨100, true, 1, 2, 3000, []⟩ = ⟨100, true, 1, 2, 3000, []⟩ :=
  startTimer_running_noop ⟨100, true, 1, 2, 3000, []⟩ rfl

/-- C10: when the countdown reaches zero, exactly one completion is
processed: `sessionsCompleted` grows by exactly 1 and `focusTime` by exactly
`timerDuration`; the localStorage write of both updated values is logged
before the gamification API call; and the timer is reset, so
`timerRemaining = timerDuration`, `isRunning = false`, and no countdown
interval remains registered. -/
theorem tick_at_zero_completes_once (s : TimerState) (h : s.timerRemaining = 0) :
    (tick s).sessionsCompleted = s.sessionsCompleted + 1 ∧
    (tick s).focusTime = s.focusTime + timerDuration ∧
    (tick s).events = s.events
      ++ [ClientEvent.saveLocal (s.sessionsCompleted + 1) (s.focusTime + timerDuration),
          ClientEvent.apiCall completionRequestBody] ∧
    (tick s).timerRemaining = timerDuration ∧
    (tick s).isRunning = false ∧
    (tick s).intervalCount = 0 := by
  simp [tick, resetTimer, h]

/-- C10, witness: the completion behaviour evaluated on a concrete state with
`timerRemaining = 0`. -/
theorem tick_at_zero_completes_once_witness :
    (tick ⟨0, true, 1, 4, 6000, []⟩).sessionsCompleted = 5 ∧
    (tick ⟨0, true, 1, 4, 6000, []⟩).focusTime = 6000 + timerDuration ∧
    (tick ⟨0, true, 1, 4, 6000, []⟩).events =
      [ClientEvent.saveLocal 5 (6000 + timerDuration),
       ClientEvent.apiCall completionRequestBody] ∧
    (tick ⟨0, true, 1, 4, 6000, []⟩).timerRemaining = timerDuration ∧
    (tick ⟨0, true, 1, 4, 6000, []⟩).isRunning = false ∧
    (tick ⟨0, true, 1, 4, 6000, []⟩).intervalCount = 0 := by
  have h := tick_at_zero_completes_once ⟨0, true, 1, 4, 6000, []⟩ rfl
  simpa using h

/-- Closed form of `levelForXp` on the concrete table, mirroring the scan. -/
theorem levelForXp_eq (xp : Nat) :
    levelForXp xp =
      if 0 ≤ xp then (if 10 ≤ xp then (if 25 ≤ xp then (if 50 ≤ xp then (if 100 ≤ xp then
        (if 200 ≤ xp then (if 400 ≤ xp then (if 800 ≤ xp then (if 1600 ≤ xp then
        (if 3200 ≤ xp then 10 else 9) else 8) else 7) else 6) else 5) else 4)
        else 3) else 2) else 1) else 1 := by
  simp only [levelForXp, levelTable, levelScan]

/-- The ten XP regions of the table, with the level each one yields. -/
theorem levelForXp_spec (xp : Nat) :
    (xp < 10 ∧ levelForXp xp = 1) ∨
    (10 ≤ xp ∧ xp < 25 ∧ levelForXp xp = 2) ∨
    (25 ≤ xp ∧ xp < 50 ∧ levelForXp xp = 3) ∨
    (50 ≤ xp ∧ xp < 100 ∧ levelForXp xp = 4) ∨
    (100 ≤ xp ∧ xp < 200 ∧ levelForXp xp = 5) ∨
    (200 ≤ xp ∧ xp < 400 ∧ levelForXp xp = 6) ∨
    (400 ≤ xp ∧ xp < 800 ∧ levelForXp xp = 7) ∨
    (800 ≤ xp ∧ xp < 1600 ∧ levelForXp xp = 8) ∨
    (1600 ≤ xp ∧ xp < 3200 ∧ levelForXp xp = 9) ∨
    (3200 ≤ xp ∧ levelForXp xp = 10) := by
  rw [levelForXp_eq, if_pos (Nat.zero_le xp)]
  rcases Nat.lt_or_ge xp 10 with h10 | h10
  · exact Or.inl ⟨h10, by rw [if_neg (by omega : ¬ 10 ≤ xp)]⟩
  rcases Nat.lt_or_ge xp 25 with h25 | h25
  · refine Or.inr (Or.inl ⟨h10, h25, ?_⟩)
    rw [if_pos h10, if_neg (by omega : ¬ 25 ≤ xp)]
  rcases Nat.lt_or_ge xp 50 with h50 | h50
  · refine Or.inr (Or.inr (Or.inl ⟨h25, h50, ?_⟩))
    rw [if_pos h10, if_pos h25, if_neg (by omega : ¬ 50 ≤ xp)]
  rcases Nat.lt_or_ge xp 100 with h100 | h100
  · refine Or.inr (Or.inr (Or.inr (Or.inl ⟨h50, h100, ?_⟩)))
    rw [if_pos h10, if_pos h25, if_pos h50, if_neg (by omega : ¬ 100 ≤ xp)]
  rcases Nat.lt_or_ge xp 200 with h200 | h200
  · refine Or.inr (Or.inr (Or.inr (Or.inr (Or.inl ⟨h100, h200, ?_⟩))))
    rw [if_pos h10, if_pos h25, if_pos h50, if_pos h100,
        if_neg (by omega : ¬ 200 ≤ xp)]
  rcases Nat.lt_or_ge xp 400 with h400 | h400
  · refine Or.inr (Or.inr (Or.inr (Or.inr (Or.inr (Or.inl ⟨h200, h400, ?_⟩)))))
    rw [if_pos h10, if_pos h25, if_pos h50, if_pos h100, if_pos h200,
        if_neg (by omega : ¬ 400 ≤ xp)]
  rcases Nat.lt_or_ge xp 800 with h800 | h800
  · refine Or.inr (Or.inr (Or.inr (Or.inr (Or.inr (Or.inr (Or.inl ⟨h400, h800, ?_⟩))))))
    rw [if_pos h10, if_pos h25, if_pos h50, if_pos h100, if_pos h200, if_pos h400,
        if_neg (by omega : ¬ 800 ≤ xp)]
  rcases Nat.lt_or_ge xp 1600 with h1600 | h1600
  · refine Or.inr (Or.inr (Or.inr (Or.inr (Or.inr (Or.inr (Or.inr (Or.inl
      ⟨h800, h1600, ?_⟩)))))))
    rw [if_pos h10, if_pos h25, if_pos h50, if_pos h100, if_pos h200, if_pos h400,
        if_pos h800, if_neg (by omega : ¬ 1600 ≤ xp)]
  rcases Nat.lt_or_ge xp 3200 with h3200 | h3200
  · refine Or.inr (Or.inr (Or.inr (Or.inr (Or.inr (Or.inr (Or.inr (Or.inr (Or.inl
      ⟨h1600, h3200, ?_⟩))))))))
    rw [if_pos h10, if_pos h25, if_pos h50, if_pos h100, if_pos h200, if_pos h400,
        if_pos h800, if_pos h1600, if_neg (by omega : ¬ 3200 ≤ xp)]
  · refine Or.inr (Or.inr (Or.inr (Or.inr (Or.inr (Or.inr (Or.inr (Or.inr (Or.inr
      ⟨h3200, ?_⟩))))))))
    rw [if_pos h10, if_pos h25, if_pos h50, if_pos h100, if_pos h200, if_pos h400,
        if_pos h800, if_pos h1600, if_pos h3200]

theorem one_le_levelForXp (xp : Nat) : 1 ≤ levelForXp xp := by
  rcases levelForXp_spec xp with ⟨_, e⟩ | ⟨_, _, e⟩ | ⟨_, _, e⟩ | ⟨_, _, e⟩ |
    ⟨_, _, e⟩ | ⟨_, _, e⟩ | ⟨_, _, e⟩ | ⟨_, _, e⟩ | ⟨_, _, e⟩ | ⟨_, e⟩ <;> omega

theorem levelForXp_le_maxLevel (xp : Nat) : levelForXp xp ≤ maxLevel := by
  rw [maxLevel]
  rcases levelForXp_spec xp with ⟨_, e⟩ | ⟨_, _, e⟩ | ⟨_, _, e⟩ | ⟨_, _, e⟩ |
    ⟨_, _, e⟩ | ⟨_, _, e⟩ | ⟨_, _, e⟩ | ⟨_, _, e⟩ | ⟨_, _, e⟩ | ⟨_, e⟩ <;> omega

/-- For levels within the table, being at most `levelForXp xp` is equivalent
to having a cumulative requirement within `xp`. -/
theorem le_levelForXp_iff (xp L : Nat) (h1 : 1 ≤ L) (h2 : L ≤ maxLevel) :
    L ≤ levelForXp xp ↔ cumulativeXpRequired L ≤ xp := by
  rw [maxLevel] at h2
  interval_cases L <;>
    simp only [cumulativeXpRequired] <;>
    (rcases levelForXp_spec xp with ⟨h, e⟩ | ⟨h, h2, e⟩ | ⟨h, h2, e⟩ | ⟨h, h2, e⟩ |
      ⟨h, h2, e⟩ | ⟨h, h2, e⟩ | ⟨h, h2, e⟩ | ⟨h, h2, e⟩ | ⟨h, h2, e⟩ | ⟨h, e⟩) <;>
    omega

/-- C3: `levelForXp` is monotonically non-decreasing, and the level returned
is the greatest level whose cumulative XP requirement is at most the given
XP, capped at the table's highest level: it lies in `[1, maxLevel]`, its own
requirement is within the XP, and every table level whose requirement is
within the XP is at most it. -/
theorem levelForXp_monotone_and_greatest :
    (∀ x1 x2 : Nat, x1 < x2 → levelForXp x1 ≤ levelForXp x2) ∧
    (∀ xp : Nat,
      1 ≤ levelForXp xp ∧ levelForXp xp ≤ maxLevel ∧
      cumulativeXpRequired (levelForXp xp) ≤ xp ∧
      ∀ L : Nat, 1 ≤ L → L ≤ maxLevel → cumulativeXpRequired L ≤ xp →
        L ≤ levelForXp xp) := by
  constructor
  · intro x1 x2 hx
    have h1 := one_le_levelForXp x1
    have h2 := levelForXp_le_maxLevel x1
    have hc : cumulativeXpRequired (levelForXp x1) ≤ x1 :=
      (le_levelForXp_iff x1 (levelForXp x1) h1 h2).mp le_rfl
    exact (le_levelForXp_iff x2 (levelForXp x1) h1 h2).mpr
      (le_trans hc (le_of_lt hx))
  · intro xp
    refine ⟨one_le_levelForXp xp, levelForXp_le_maxLevel xp, ?_, ?_⟩
    · exact (le_levelForXp_iff xp (levelForXp xp) (one_le_levelForXp xp)
        (levelForXp_le_maxLevel xp)).mp le_rfl
    · intro L hL1 hL2 hLc
      exact (le_levelForXp_iff xp L hL1 hL2).mpr hLc

/-- C3, witness: monotonicity between XP 5 and 2000, and level 7 (requirement
400) is a lower bound on `levelForXp 2000`. -/
theorem levelForXp_monotone_and_greatest_witness :
    levelForXp 5 ≤ levelForXp 2000 ∧ 7 ≤ levelForXp 2000 :=
  ⟨levelForXp_monotone_and_greatest.1 5 2000 (by decide),
   (levelForXp_monotone_and_greatest.2 2000).2.2.2 7 (by decide) (by decide)
     (by decide)⟩

/-- C4: for every XP value, `progressPercentage` lies in `[0,100]`, and below
max level it is exactly the spec formula `100 * (xp − currentLevelFloorXp) /
(nextLevelThresholdXp − currentLevelFloorXp)` clamped to `[0,100]`. -/
theorem xpProgress_percentage_in_range (xp : Nat) :
    0 ≤ (xpProgress xp).progressPercentage ∧
    (xpProgress xp).progressPercentage ≤ 100 ∧
    ((xpProgress xp).isMaxLevel = false →
      (xpProgress xp).progressPercentage =
        max 0 (min 100 (100 * ((xp : ℚ) - ((xpProgress xp).currentLevelFloorXp : ℚ)) /
          (((xpProgress xp).nextLevelThresholdXp : ℚ) -
            ((xpProgress xp).currentLevelFloorXp : ℚ))))) := by
  by_cases h : levelForXp xp = maxLevel
  · simp [xpProgress, h]
  · simp only [xpProgress, if_neg h]
    exact ⟨le_max_left 0 _, max_le (by norm_num) (min_le_left 100 _), by simp⟩

/-- C4, witness: the bounds and the clamped formula evaluated at `xp = 5`,
which is below max level. -/
theorem xpProgress_percentage_in_range_witness :
    0 ≤ (xpProgress 5).progressPercentage ∧
    (xpProgress 5).progressPercentage ≤ 100 ∧
    (xpProgress 5).progressPercentage =
      max 0 (min 100 (100 * (((5 : Nat) : ℚ) - ((xpProgress 5).currentLevelFloorXp : ℚ)) /
        (((xpProgress 5).nextLevelThresholdXp : ℚ) -
          ((xpProgress 5).currentLevelFloorXp : ℚ)))) :=
  ⟨(xpProgress_percentage_in_range 5).1, (xpProgress_percentage_in_range 5).2.1,
   (xpProgress_percentage_in_range 5).2.2 (by decide)⟩

theorem statsOf_set_unlocked (r : GamificationRecord) (u : List String) :
    statsOf { r with unlockedAchievements := u } = statsOf r := rfl

/-- Every id reported by `evaluate` has a true predicate and is not yet
unlocked. -/
theorem mem_evaluate (r : GamificationRecord) (i : String) :
    i ∈ evaluate r ↔
      ∃ a ∈ achievementCatalog, a.id = i ∧ a.predicate (statsOf r) = true ∧
        i ∉ r.unlockedAchievements := by
  simp only [evaluate, List.mem_map, List.mem_filter, Bool.and_eq_true,
    Bool.not_eq_true', decide_eq_false_iff_not]
  constructor
  · rintro ⟨a, ⟨ha, hp, hm⟩, rfl⟩
    exact ⟨a, ha, rfl, hp, hm⟩
  · rintro ⟨a, ha, rfl, hp, hm⟩
    exact ⟨a, ⟨ha, hp, hm⟩, rfl⟩

/-- C7: achievement evaluation is idempotent: `evaluate` reports only ids
whose predicate is true and that are not already unlocked — so an
already-unlocked id is never re-reported — and re-evaluating the record
after unioning in the newly reported ids yields the empty set. -/
theorem evaluate_idempotent (r : GamificationRecord) :
    (∀ i ∈ evaluate r, i ∉ r.unlockedAchievements) ∧
    (∀ i ∈ evaluate r, ∃ a ∈ achievementCatalog,
      a.id = i ∧ a.predicate (statsOf r) = true) ∧
    evaluate { r with unlockedAchievements :=
      r.unlockedAchievements ++ evaluate r } = [] := by
  refine ⟨?_, ?_, ?_⟩
  · intro i hi
    obtain ⟨a, _, _, _, hm⟩ := (mem_evaluate r i).mp hi
    exact hm
  · intro i hi
    obtain ⟨a, ha, hai, hp, _⟩ := (mem_evaluate r i).mp hi
    exact ⟨a, ha, hai, hp⟩
  · rw [List.eq_nil_iff_forall_not_mem]
    intro i hi
    obtain ⟨a, ha, hai, hp, hm⟩ :=
      (mem_evaluate { r with unlockedAchievements :=
        r.unlockedAchievements ++ evaluate r } i).mp hi
    rw [statsOf_set_unlocked] at hp
    simp only [List.mem_append, not_or] at hm
    obtain ⟨hm1, hm2⟩ := hm
    exact hm2 ((mem_evaluate r i).mpr ⟨a, ha, hai, hp, hm1⟩)

/-- C8: a completion call with a non-positive `focusDurationSeconds` fails
with `InvalidInput` and touches the store in no way: the store comes back
exactly as it was, and in particular its load and save counters — the
mutation spy — are unchanged, so the rejection happens before any load or
save. -/
theorem recordCompletion_invalid_input (st : ProgressStore) (u : String)
    (d : Int) (t : Nat) (hd : d ≤ 0) :
    recordCompletion st u d t = (st, Except.error EngineError.InvalidInput) ∧
    (recordCompletion st u d t).1.loadCount = st.loadCount ∧
    (recordCompletion st u d t).1.saveCount = st.saveCount := by
  by_cases hu : u = "" <;> simp [recordCompletion, hu, hd]

/-- C8, witness: a concrete call with `focusDurationSeconds = 0` on a
non-empty store leaves the store untouched and reports `InvalidInput`. -/
theorem recordCompletion_invalid_input_witness :
    recordCompletion ⟨[("alice", initialRecord)], 3, 2⟩ "alice" 0 99999 =
      (⟨[("alice", initialRecord)], 3, 2⟩, Except.error EngineError.InvalidInput) ∧
    (recordCompletion ⟨[("alice", initialRecord)], 3, 2⟩ "alice" 0 99999).1.loadCount = 3 ∧
    (recordCompletion ⟨[("alice", initialRecord)], 3, 2⟩ "alice" 0 99999).1.saveCount = 2 :=
  recordCompletion_invalid_input ⟨[("alice", initialRecord)], 3, 2⟩ "alice" 0 99999
    (by decide)

theorem getRecord_storeSave (st : ProgressStore) (u : String) (r : GamificationRecord) :
    getRecord (storeSave st u r) u = r := by
  simp [getRecord, storeSave, List.find?_cons_of_pos]

theorem find?_filter_other (l : List (String × GamificationRecord)) (u v : String)
    (hne : v ≠ u) :
    (l.filter (fun p => !(p.1 == u))).find? (fun p => p.1 == v) =
      l.find? (fun p => p.1 == v) := by
  induction l with
  | nil => rfl
  | cons p l ih =>
    by_cases hp : p.1 = u
    · have h1 : (p.1 == u) = true := beq_iff_eq.mpr hp
      have h2 : (p.1 == v) = false := by
        refine beq_eq_false_iff_ne.mpr ?_
        rw [hp]
        exact fun hh => hne hh.symm
      simp [List.filter_cons, h1, List.find?_cons, h2, ih]
    · have h1 : (p.1 == u) = false := beq_eq_false_iff_ne.mpr hp
      by_cases hv : p.1 = v
      · have h2 : (p.1 == v) = true := beq_iff_eq.mpr hv
        simp [List.filter_cons, h1, List.find?_cons, h2]
      · have h2 : (p.1 == v) = false := beq_eq_false_iff_ne.mpr hv
        simp [List.filter_cons, h1, List.find?_cons, h2, ih]

theorem getRecord_storeSave_other (st : ProgressStore) (u v : String)
    (r : GamificationRecord) (hne : v ≠ u) :
    getRecord (storeSave st u r) v = getRecord st v := by
  have h1 : (u == v) = false := by
    refine beq_eq_false_iff_ne.mpr ?_
    exact fun hh => hne hh.symm
  simp only [getRecord, storeSave, List.find?_cons, h1]
  rw [find?_filter_other st.records u v hne]

theorem getRecord_load_counter (st : ProgressStore) (u : String) :
    getRecord { records := st.records, loadCount := st.loadCount + 1,
                saveCount := st.saveCount } u = getRecord st u := rfl

/-- The streak field produced by `applyCompletion` is the spec's
calendar-date streak update. -/
theorem applyCompletion_currentStreak (r : GamificationRecord) (d t : Nat) :
    (applyCompletion r d t).1.currentStreak =
      streakUpdate r.currentStreak r.lastSessionDate (dateOf t) := rfl

theorem applyCompletion_longestStreak (r : GamificationRecord) (d t : Nat) :
    (applyCompletion r d t).1.longestStreak =
      max r.longestStreak (streakUpdate r.currentStreak r.lastSessionDate (dateOf t)) := rfl

theorem applyCompletion_unlocked_mono (r : GamificationRecord) (d t : Nat) :
    ∀ a ∈ r.unlockedAchievements, a ∈ (applyCompletion r d t).1.unlockedAchievements :=
  fun _ ha => List.mem_append_left _ ha

/-- The record saved by a valid `recordCompletion` call. -/
theorem recordCompletion_valid (st : ProgressStore) (u : String) (d : Int)
    (t : Nat) (hu : u ≠ "") (hd : 0 < d) :
    (recordCompletion st u d t).1 =
      storeSave { records := st.records, loadCount := st.loadCount + 1,
                  saveCount := st.saveCount } u
        (applyCompletion (getRecord st u) d.toNat t).1 := by
  have hd2 : ¬ d ≤ 0 := by omega
  simp [recordCompletion, hu, hd2]

/-- C2: `recordCompletion` updates `currentStreak` by calendar-date
comparison of the completion time against `lastSessionDate`: with no prior
date the streak becomes 1; on the same calendar date it is unchanged; exactly
one calendar day later it grows by 1; on any larger gap it resets to 1, never
to 0. -/
theorem recordCompletion_streak_cases (st : ProgressStore) (u : String)
    (d : Int) (t : Nat) (hu : u ≠ "") (hd : 0 < d) :
    ((getRecord st u).lastSessionDate = none →
      (getRecord (recordCompletion st u d t).1 u).currentStreak = 1) ∧
    (∀ last, (getRecord st u).lastSessionDate = some last →
      (dateOf t = last →
        (getRecord (recordCompletion st u d t).1 u).currentStreak =
          (getRecord st u).currentStreak) ∧
      (dateOf t = last + 1 →
        (getRecord (recordCompletion st u d t).1 u).currentStreak =
          (getRecord st u).currentStreak + 1) ∧
      (last + 1 < dateOf t →
        (getRecord (recordCompletion st u d t).1 u).currentStreak = 1)) := by
  have hkey : getRecord (recordCompletion st u d t).1 u =
      (applyCompletion (getRecord st u) d.toNat t).1 := by
    rw [recordCompletion_valid st u d t hu hd, getRecord_storeSave]
  rw [hkey, applyCompletion_currentStreak]
  constructor
  · intro h
    rw [h]
    rfl
  · intro last hlast
    rw [hlast]
    refine ⟨fun h => ?_, fun h => ?_, fun h => ?_⟩
    · simp [streakUpdate, h]
    · simp [streakUpdate, h]
    · have h1 : dateOf t ≠ last := by omega
      have h2 : dateOf t ≠ last + 1 := by omega
      simp [streakUpdate, h1, h2]

/-- C2, witness: a first completion for a fresh user (no prior session date)
sets the streak to 1. -/
theorem recordCompletion_streak_cases_witness :
    (getRecord (recordCompletion emptyStore "alice" 1500 0).1 "alice").currentStreak = 1 :=
  (recordCompletion_streak_cases emptyStore "alice" 1500 0 (by decide) (by decide)).1 rfl

theorem applyCompletion_streak_le (r : GamificationRecord) (d t : Nat) :
    (applyCompletion r d t).1.currentStreak ≤ (applyCompletion r d t).1.longestStreak := by
  rw [applyCompletion_currentStreak, applyCompletion_longestStreak]
  exact le_max_right _ _

theorem engineStep_streakInv (st : ProgressStore) (e : String × Int × Nat)
    (h : StreakInv st) : StreakInv (engineStep st e) := by
  unfold engineStep
  by_cases h1 : e.1 = ""
  · simpa [recordCompletion, h1] using h
  by_cases h2 : e.2.1 ≤ 0
  · simpa [recordCompletion, h1, h2] using h
  rw [recordCompletion_valid st e.1 e.2.1 e.2.2 h1 (by omega)]
  intro p hp
  rcases List.mem_cons.mp hp with hpe | hpf
  · rw [hpe]
    exact applyCompletion_streak_le _ _ _
  · exact h p (List.mem_of_mem_filter hpf)

theorem runEvents_streakInv (evs : List (String × Int × Nat)) (st : ProgressStore)
    (h : StreakInv st) : StreakInv (runEvents st evs) := by
  induction evs generalizing st with
  | nil => exact h
  | cons e l ih => exact ih (engineStep st e) (engineStep_streakInv st e h)

theorem getRecord_streakInv (st : ProgressStore) (u : String) (h : StreakInv st) :
    (getRecord st u).currentStreak ≤ (getRecord st u).longestStreak := by
  unfold getRecord
  cases hf : st.records.find? (fun p => p.1 == u) with
  | none => exact Nat.le_refl 0
  | some p => exact h p (List.mem_of_find?_eq_some hf)

/-- C5: every completion sets `longestStreak` to `max(longestStreak,
currentStreak)`, and consequently `longestStreak ≥ currentStreak` holds for
every user's record after any sequence of engine operations from the empty
store. -/
theorem longestStreak_ge_currentStreak :
    (∀ (r : GamificationRecord) (d t : Nat),
      (applyCompletion r d t).1.longestStreak =
        max r.longestStreak ((applyCompletion r d t).1.currentStreak)) ∧
    (∀ (evs : List (String × Int × Nat)) (u : String),
      (getRecord (runEvents emptyStore evs) u).currentStreak ≤
        (getRecord (runEvents emptyStore evs) u).longestStreak) := by
  constructor
  · intro r d t
    rw [applyCompletion_currentStreak, applyCompletion_longestStreak]
  · intro evs u
    refine getRecord_streakInv _ _ (runEvents_streakInv evs emptyStore ?_)
    intro p hp
    simp [emptyStore] at hp

theorem engineStep_unlocked_mono (st : ProgressStore) (e : String × Int × Nat)
    (v : String) :
    ∀ a ∈ (getRecord st v).unlockedAchievements,
      a ∈ (getRecord (engineStep st e) v).unlockedAchievements := by
  intro a ha
  unfold engineStep
  by_cases h1 : e.1 = ""
  · simpa [recordCompletion, h1] using ha
  by_cases h2 : e.2.1 ≤ 0
  · simpa [recordCompletion, h1, h2] using ha
  rw [recordCompletion_valid st e.1 e.2.1 e.2.2 h1 (by omega)]
  by_cases hv : v = e.1
  · subst hv
    rw [getRecord_storeSave]
    exact applyCompletion_unlocked_mono _ _ _ a ha
  · rw [getRecord_storeSave_other _ _ _ _ hv]
    rwa [getRecord_load_counter]

theorem runEvents_unlocked_mono (l : List (String × Int × Nat))
    (st : ProgressStore) (v : String) :
    ∀ a ∈ (getRecord st v).unlockedAchievements,
      a ∈ (getRecord (runEvents st l) v).unlockedAchievements := by
  induction l generalizing st with
  | nil => exact fun _ ha => ha
  | cons e l ih =>
      exact fun a ha => ih (engineStep st e) a (engineStep_unlocked_mono st e v a ha)

/-- C6: `unlockedAchievements` is monotonic under completions — ids are only
ever added, never removed — so the unlocked set after a sequence of events is
a superset of the unlocked set after any prefix of that sequence. -/
theorem unlockedAchievements_monotone (l1 l2 : List (String × Int × Nat)) (u : String) :
    ∀ a ∈ (getRecord (runEvents emptyStore l1) u).unlockedAchievements,
      a ∈ (getRecord (runEvents emptyStore (l1 ++ l2)) u).unlockedAchievements := by
  intro a ha
  have hsplit : runEvents emptyStore (l1 ++ l2) = runEvents (runEvents emptyStore l1) l2 := by
    simp [runEvents, List.foldl_append]
  rw [hsplit]
  exact runEvents_unlocked_mono l2 (runEvents emptyStore l1) u a ha

/-- C6, witness: the achievement unlocked by the first event survives a
second, unrelated event appended to the sequence. -/
theorem unlockedAchievements_monotone_witness :
    "first_session" ∈ (getRecord (runEvents emptyStore
      ([("alice", 1500, 0)] ++ [("bob", 900, 90000)])) "alice").unlockedAchievements :=
  unlockedAchievements_monotone [("alice", 1500, 0)] [("bob", 900, 90000)] "alice"
    "first_session" (by decide)

/-- C7, witness: on a record with one session, `evaluate` reports
`first_session`, which is not yet unlocked, and re-evaluating after unioning
the new ids in yields the empty set. -/
theorem evaluate_idempotent_witness :
    "first_session" ∉ sampleRecord.unlockedAchievements ∧
    evaluate { sampleRecord with unlockedAchievements :=
      sampleRecord.unlockedAchievements ++ evaluate sampleRecord } = [] :=
  ⟨(evaluate_idempotent sampleRecord).1 "first_session" (by decide),
   (evaluate_idempotent sampleRecord).2.2⟩

end Pomodoro
